import Mathlib

/-!
Verification development for the shuttletracker updater
(`updater/updater.go`).  The Go source is shallowly embedded: float64
values that occur in the updater (all of which are finite or `+Inf`,
never `NaN`) are modelled as exact fractions (`Q`) extended with an
infinity (`GoF`); `math.Sqrt` is an explicit function argument `sqrtFn`
everywhere it matters (its exact IEEE value is irrelevant to every
property proved here), with `ratSqrt` as a concrete instantiation that
agrees with `math.Sqrt` on perfect squares, the only points at which
concrete scenarios evaluate it.
-/

/-- Exact fraction standing in for a finite Go `float64` value: an integer
numerator and a positive natural denominator.  The updater's float
arithmetic (subtraction, squaring, addition, division by a positive count,
ordering and equality comparison) is modelled exactly, abstracting from
IEEE rounding, which no claim in scope depends on. -/
structure Q where
  num : ℤ
  den : ℕ+
deriving DecidableEq

/-- Zero. -/
def Q.zero : Q := ⟨0, 1⟩

/-- The proximity threshold `.003` from `GuessRouteForVehicle`. -/
def q003 : Q := ⟨3, 1000⟩

/-- The penalty `50` added to far samples in `GuessRouteForVehicle`. -/
def q50 : Q := ⟨50, 1⟩

/-- The ambiguity threshold `5` from `GuessRouteForVehicle`. -/
def q5 : Q := ⟨5, 1⟩

/-- Subtraction of fractions. -/
def Q.sub (x y : Q) : Q := ⟨x.num * (y.den : ℕ) - y.num * (x.den : ℕ), x.den * y.den⟩

/-- Addition of fractions. -/
def Q.add (x y : Q) : Q := ⟨x.num * (y.den : ℕ) + y.num * (x.den : ℕ), x.den * y.den⟩

/-- Multiplication of fractions. -/
def Q.mul (x y : Q) : Q := ⟨x.num * y.num, x.den * y.den⟩

/-- Strict order on fractions by cross multiplication (denominators are
positive), the model of the float64 `<` comparison. -/
def Q.blt (x y : Q) : Bool := decide (x.num * ((y.den : ℕ) : ℤ) < y.num * ((x.den : ℕ) : ℤ))

/-- Value equality of fractions by cross multiplication, the model of the
float64 `==` comparison. -/
def Q.qeqB (x y : Q) : Bool := decide (x.num * ((y.den : ℕ) : ℤ) = y.num * ((x.den : ℕ) : ℤ))

/-- Rational value of a fraction, used only inside proofs. -/
def Q.toRat (x : Q) : ℚ := (x.num : ℚ) / ((x.den : ℕ) : ℚ)

/-- A Go `float64` as it occurs in the updater: a finite value or `+Inf`
(`math.Inf(0)`).  `NaN` and `-Inf` are unreachable in the embedded code. -/
inductive GoF where
  | fin (q : Q)
  | inf
deriving DecidableEq

/-- Addition with `+Inf` absorbing, as in IEEE arithmetic away from `NaN`. -/
def GoF.add : GoF → GoF → GoF
  | .fin a, .fin b => .fin (a.add b)
  | .inf, _ => .inf
  | .fin _, .inf => .inf

/-- The float64 `<` comparison; `+Inf` is strictly greater than every finite
value and not less than itself. -/
def GoF.blt : GoF → GoF → Bool
  | .fin a, .fin b => a.blt b
  | .fin _, .inf => true
  | .inf, _ => false

/-- The float64 `==` comparison. -/
def GoF.qeqB : GoF → GoF → Bool
  | .fin a, .fin b => a.qeqB b
  | .inf, .inf => true
  | _, _ => false

/-- Division by a positive count, modelling `routeDistances[id] / float64(len(updates))`. -/
def GoF.divPos : GoF → ℕ+ → GoF
  | .fin a, n => .fin ⟨a.num, a.den * n⟩
  | .inf, _ => .inf

/-- The ambiguity threshold `5` as a float. -/
def gof5 : GoF := .fin q5

/-- Valuation of an embedded float in `WithTop ℚ`; used only inside proofs
to borrow the linear order of the rationals. -/
def GoF.val : GoF → WithTop ℚ
  | .fin a => (a.toRat : WithTop ℚ)
  | .inf => ⊤

/-- Binary minimum as computed by a running `if x < min` loop: keeps the
earlier value on ties. -/
def GoF.minB (x y : GoF) : GoF := if GoF.blt y x then y else x

/-- Minimum of a list of floats, starting from `+Inf` like the Go loops. -/
def listMin (l : List GoF) : GoF := l.foldl GoF.minB GoF.inf

/-- Character is an ASCII digit, as in the regexp class `\d`. -/
def isDigitCh (c : Char) : Bool := 48 ≤ c.toNat && c.toNat ≤ 57

/-- Character class `[\d\.]` of the `id` field of the data regexp. -/
def clsIdCh (c : Char) : Bool := isDigitCh c || c.toNat == 46

/-- Character class `[\d\.-]` of the numeric fields of the data regexp. -/
def clsNumCh (c : Char) : Bool := isDigitCh c || c.toNat == 46 || c.toNat == 45

/-- Expect a literal at the head of the input, returning the rest. -/
def dropLit : List Char → List Char → Option (List Char)
  | [], s => some s
  | _ :: _, [] => none
  | c :: p, d :: s => if c == d then dropLit p s else none

/-- Maximal nonempty run of characters of a class, returning run and rest.
Models a greedy `(cls)+` group; because no class contains a space and every
following literal starts with a non-class character, greedy maximal munch
is exactly what the RE2 engine commits to here. -/
def munch1 (cls : Char → Bool) (l : List Char) : Option (List Char × List Char) :=
  let run := l.takeWhile cls
  if run.isEmpty then none else some (run, l.dropWhile cls)

/-- One `label:value` field of the data regexp grammar: the literal label
followed by a nonempty greedy run of the field's character class. -/
def fieldAt (label : List Char) (cls : Char → Bool) (l : List Char) :
    Option (List Char × List Char) :=
  match dropLit label l with
  | none => none
  | some r => munch1 cls r

/-- The value runs captured from one feed record by the data regexp
`Vehicle ID:([\d\.]+) lat:([\d\.-]+) lon:([\d\.-]+) dir:([\d\.-]+)
spd:([\d\.-]+) lck:([\d\.-]+) time:([\d]+) date:([\d]+) trig:([\d]+)`.
Each named group of the Go regexp captures label and value together; the
code strips the label back off with `strings.Replace` (which, as the value
characters cannot spell a label, removes exactly the leading label), so the
embedding stores the value runs. -/
structure ParsedRecord where
  id : List Char
  lat : List Char
  lng : List Char
  heading : List Char
  speed : List Char
  lock : List Char
  time : List Char
  date : List Char
  status : List Char
deriving DecidableEq

/-- Match the whole fixed field grammar starting exactly at the head of the
input; a match may leave trailing input unconsumed, as the regexp is
unanchored. -/
def matchAt (l : List Char) : Option ParsedRecord := do
  let (idv, r1) ← fieldAt "Vehicle ID:".data clsIdCh l
  let (latv, r2) ← fieldAt " lat:".data clsNumCh r1
  let (lngv, r3) ← fieldAt " lon:".data clsNumCh r2
  let (headv, r4) ← fieldAt " dir:".data clsNumCh r3
  let (spdv, r5) ← fieldAt " spd:".data clsNumCh r4
  let (lckv, r6) ← fieldAt " lck:".data clsNumCh r5
  let (timv, r7) ← fieldAt " time:".data isDigitCh r6
  let (datv, r8) ← fieldAt " date:".data isDigitCh r7
  let (stav, _) ← fieldAt " trig:".data isDigitCh r8
  pure ⟨idv, latv, lngv, headv, spdv, lckv, timv, datv, stav⟩

/-- Leftmost match of the data regexp: the first start position at which the
fixed grammar matches, as `FindAllStringSubmatch(vehicleData, -1)[0]` would
report. -/
def findFirst : List Char → Option ParsedRecord
  | [] => matchAt []
  | c :: t =>
    match matchAt (c :: t) with
    | some r => some r
    | none => findFirst t

/-- Numeric value of a run of ASCII digit characters. -/
def digitsToNat (l : List Char) : ℕ := l.foldl (fun a c => 10 * a + (c.toNat - 48)) 0

/-- All characters of the run are ASCII digits. -/
def allDigits (l : List Char) : Bool := l.all isDigitCh

/-- Split a character run at its only dot, failing when it has two or more
dots. -/
def splitDot : List Char → Option (List Char × List Char)
  | [] => some ([], [])
  | c :: t =>
    if c.toNat == 46 then
      if t.contains '.' then none else some ([], t)
    else
      (splitDot t).map (fun p => (c :: p.1, p.2))

/-- Model of `strconv.ParseFloat(s, 64)` on the strings the numeric field
classes can produce (digits, dots and a dash, never an exponent, sign `+`,
underscore, or a word like `Inf`): an optional leading minus sign, then
digits with at most one dot and at least one digit, the whole string
consumed; the value is returned exactly instead of rounded to a double. -/
def parseGoFloat (l : List Char) : Option Q :=
  let p := match l with
    | '-' :: t => (true, t)
    | _ => (false, l)
  if p.2.isEmpty then none
  else
    match splitDot p.2 with
    | none => none
    | some (ip, fp) =>
      if allDigits ip && allDigits fp && !(ip.isEmpty && fp.isEmpty) then
        some ⟨(if p.1 then -1 else 1) * (digitsToNat (ip ++ fp) : ℤ),
          ⟨10 ^ fp.length, Nat.pos_pow_of_pos _ (by omega)⟩⟩
      else none

/-- A parsed absolute timestamp.  `time.Time` values produced by the
updater all come from `time.Parse` in UTC, whose `Equal` comparison
coincides with equality of the parsed calendar fields. -/
structure Timestamp where
  year : ℕ
  month : ℕ
  day : ℕ
  hour : ℕ
  minute : ℕ
  second : ℕ
deriving DecidableEq

/-- Gregorian leap-year rule, as used by Go's `time` package. -/
def isLeap (y : ℕ) : Bool := (y % 4 == 0 && y % 100 != 0) || y % 400 == 0

/-- Days in a month, as validated by `time.Parse`. -/
def daysInMonth (y m : ℕ) : ℕ :=
  if m == 2 then (if isLeap y then 29 else 28)
  else if m == 4 || m == 6 || m == 9 || m == 11 then 30
  else 31

/-- Model of `time.Parse("date:01022006 time:150405", combined)` on the
digit-run inputs the updater feeds it: the two literal labels, a two-digit
month, two-digit day, four-digit year, two-digit hour, minute and second
(on an all-digit input the non-fixed hour field also consumes exactly two
digits), the input fully consumed, and the calendar ranges validated. -/
def parseCombined (l : List Char) : Option Timestamp :=
  match dropLit "date:".data l with
  | none => none
  | some r1 =>
    let mm := r1.take 2
    let r2 := r1.drop 2
    let dd := r2.take 2
    let r3 := r2.drop 2
    let yy := r3.take 4
    let r4 := r3.drop 4
    match dropLit " time:".data r4 with
    | none => none
    | some r5 =>
      let hh := r5.take 2
      let r6 := r5.drop 2
      let mi := r6.take 2
      let r7 := r6.drop 2
      let ss := r7.take 2
      let r8 := r7.drop 2
      if mm.length == 2 && allDigits mm && dd.length == 2 && allDigits dd &&
          yy.length == 4 && allDigits yy && hh.length == 2 && allDigits hh &&
          mi.length == 2 && allDigits mi && ss.length == 2 && allDigits ss &&
          r8.isEmpty then
        let mo := digitsToNat mm
        let da := digitsToNat dd
        let ye := digitsToNat yy
        let ho := digitsToNat hh
        let mn := digitsToNat mi
        let se := digitsToNat ss
        if 1 ≤ mo && mo ≤ 12 && 1 ≤ da && da ≤ daysInMonth ye mo &&
            ho ≤ 23 && mn ≤ 59 && se ≤ 59 then
          some ⟨ye, mo, da, ho, mn, se⟩
        else none
      else none

/-- The zero-padding step of `itrakTimeDate`: when the labelled time string
is shorter than 11 characters, keep its first 5 characters (the `time:`
label), insert `11 - len` zeros, then the remaining characters.  (Go would
panic slicing a string shorter than 5 characters, which the field grammar
makes unreachable: a matched time field is `time:` plus at least one
digit.) -/
def padItrakTime (itrakTime : List Char) : List Char :=
  if itrakTime.length < 11 then
    itrakTime.take 5 ++ List.replicate (11 - itrakTime.length) '0' ++ itrakTime.drop 5
  else itrakTime

/-- Model of `itrakTimeDate`: zero-pad the labelled time string, join it to
the labelled date string with a space, and parse the combination with the
fixed layout `date:01022006 time:150405`. -/
def itrakTimeDate (itrakTime itrakDate : List Char) : Option Timestamp :=
  parseCombined (itrakDate ++ [' '] ++ padItrakTime itrakTime)

/-- Model of `kphToMPH`: multiply by `0.621371192` exactly. -/
def kphToMPH (kmh : Q) : Q := kmh.mul ⟨621371192, 1000000000⟩

/-- A vehicle, as consumed by the updater: internal identifier, display
name, the feed's tracker identifier, and the enabled flag. -/
structure Vehicle where
  id : ℤ
  name : String
  trackerID : List Char
  enabled : Bool
deriving DecidableEq

/-- One point of a route's polyline. -/
structure RPoint where
  latitude : Q
  longitude : Q
deriving DecidableEq

/-- A route, as consumed by the route guesser: identifier, name, the
enabled and active flags, and the ordered polyline points. -/
structure Route where
  id : ℤ
  name : String
  enabled : Bool
  active : Bool
  points : List RPoint
deriving DecidableEq

/-- A location record as built by `handleVehicleData`. -/
structure Location where
  trackerID : List Char
  latitude : Q
  longitude : Q
  heading : Q
  speed : Q
  time : Timestamp
  routeID : Option ℤ
deriving DecidableEq

/-- Modelled from the spec: the persistence collaborator (`ModelService`),
which is not part of the updater source.  It holds the vehicle and route
snapshots and the stored locations, newest first; in the model its
operations never fail with a storage error, and `locationsSince` returns
the vehicle's stored locations (the store standing for the 15-minute
window the query would select). -/
structure MS where
  vehicles : List Vehicle
  routes : List Route
  locations : List Location
deriving DecidableEq

/-- Modelled from the spec: `vehicleWithTrackerID(id) -> Vehicle | NotFound`. -/
def VehicleWithTrackerID (ms : MS) (tid : List Char) : Option Vehicle :=
  ms.vehicles.find? (fun v => v.trackerID == tid)

/-- Modelled from the spec: `latestLocation(vehicleID) -> Location |
NotFound`, the vehicle's most recently stored location. -/
def LatestLocation (ms : MS) (v : Vehicle) : Option Location :=
  ms.locations.find? (fun l => l.trackerID == v.trackerID)

/-- Modelled from the spec: `locationsSince(vehicleID, sinceTime)`, the
vehicle's recent location history. -/
def LocationsSince (ms : MS) (v : Vehicle) : List Location :=
  ms.locations.filter (fun l => l.trackerID == v.trackerID)

/-- Modelled from the spec: `route(id) -> Route | error`. -/
def RouteByID (ms : MS) (id : ℤ) : Option Route :=
  ms.routes.find? (fun r => r.id == id)

/-- Modelled from the spec: `createLocation(Location)`, storing the new
location as the vehicle's most recent. -/
def CreateLocation (ms : MS) (l : Location) : MS :=
  { ms with locations := l :: ms.locations }

/-- Pointwise update of the `routeDistances` map at one key. -/
def updAt (f : ℤ → GoF) (k : ℤ) (v : GoF) : ℤ → GoF :=
  fun x => if x = k then v else f x

/-- The inner loop of the accumulation phase of `GuessRouteForVehicle`: the
running nearest squared-root distance from one update to the polyline,
starting at `math.Inf(0)`. -/
def nearestPointDistance (sqrtFn : Q → Q) (u : Location) (points : List RPoint) : GoF :=
  points.foldl
    (fun nd p =>
      let distance : GoF := .fin (sqrtFn
        (((u.latitude.sub p.latitude).mul (u.latitude.sub p.latitude)).add
          ((u.longitude.sub p.longitude).mul (u.longitude.sub p.longitude))))
      if GoF.blt distance nd then distance else nd)
    GoF.inf

/-- The nearest-point distance of one update to a polyline, with the `+50`
penalty applied when it exceeds the `.003` proximity threshold. -/
def penalizedDistance (sqrtFn : Q → Q) (u : Location) (points : List RPoint) : GoF :=
  let nd := nearestPointDistance sqrtFn u points
  if GoF.blt (.fin q003) nd then nd.add (.fin q50) else nd

/-- The `routeDistances` map after the disabled-or-inactive check of one
route for one update: such a route has `math.Inf(0)` added to its entry. -/
def disabledStep (dists : ℤ → GoF) (route : Route) : ℤ → GoF :=
  if !route.enabled || !route.active then
    updAt dists route.id ((dists route.id).add .inf)
  else dists

/-- One route's contribution for one update in the accumulation phase: the
disabled-or-inactive infinity first, then the penalized nearest-point
distance, both added to the route's entry. -/
def routeStep (sqrtFn : Q → Q) (u : Location) (dists : ℤ → GoF) (route : Route) : ℤ → GoF :=
  updAt (disabledStep dists route) route.id
    ((disabledStep dists route route.id).add (penalizedDistance sqrtFn u route.points))

/-- The accumulated `routeDistances` map: every key starts at `0` (the Go
code initializes exactly the route identifiers; the model's total map
defaults every key to `0`, and the selection phase only consults the keys
in its iteration order), then for every update and every route the route's
contribution is added at its identifier. -/
def routeDistances (sqrtFn : Q → Q) (routes : List Route) (updates : List Location) : ℤ → GoF :=
  updates.foldl (fun dists u => routes.foldl (routeStep sqrtFn u) dists)
    (fun _ => .fin Q.zero)

/-- State of the selection loop of `GuessRouteForVehicle`. -/
structure MinState where
  minDistance : GoF
  minRouteID : ℤ
deriving DecidableEq

/-- One iteration of the selection loop: average the key's accumulated
distance over the update count; when it beats the running minimum, record
it and its key, and reset the key to the `0` sentinel when the new minimum
exceeds the ambiguity threshold `5`. -/
def minStep (dists : ℤ → GoF) (n : ℕ+) (s : MinState) (id : ℤ) : MinState :=
  let distance := (dists id).divPos n
  if GoF.blt distance s.minDistance then
    ⟨distance, if GoF.blt gof5 distance then 0 else id⟩
  else s

/-- The selection loop of `GuessRouteForVehicle` over a fixed iteration
order of the `routeDistances` keys (Go iterates the map in a
non-deterministic key order, which the model takes as an argument),
starting from `math.Inf(0)` and the `0` sentinel. -/
def selectMinRouteID (order : List ℤ) (dists : ℤ → GoF) (n : ℕ+) : ℤ :=
  (order.foldl (minStep dists n) ⟨.inf, 0⟩).minRouteID

/-- Model of `GuessRouteForVehicle`: fetch routes and the recent history;
abstain below 5 samples (returning the error of the history lookup, `nil`
in the errorless model store); otherwise accumulate distances, select the
minimum under the threshold rules, report no route for the `0` sentinel,
and otherwise look the selected route up.  The boolean component is the
returned error: `true` exactly when the final `ms.Route` lookup fails. -/
def GuessRouteForVehicle (sqrtFn : Q → Q) (ms : MS) (order : List ℤ) (vehicle : Vehicle) :
    Option Route × Bool :=
  if (LocationsSince ms vehicle).length < 5 then (none, false)
  else
    if selectMinRouteID order (routeDistances sqrtFn ms.routes (LocationsSince ms vehicle))
        (LocationsSince ms vehicle).length.toPNat' = 0 then (none, false)
    else
      match RouteByID ms (selectMinRouteID order
          (routeDistances sqrtFn ms.routes (LocationsSince ms vehicle))
          (LocationsSince ms vehicle).length.toPNat') with
      | some r => (some r, false)
      | none => (none, true)

/-- Outcome of one `handleVehicleData` call.  `panicked` models the Go
runtime panic raised by indexing `[0]` into the empty slice that
`FindAllStringSubmatch` returns when the record matches the grammar
nowhere; the other outcomes are the function's early returns and its
normal completion. -/
inductive Outcome where
  | panicked
  | unknownVehicle
  | badTimeDate
  | duplicate
  | guessFailed
  | badFloat
  | created
deriving DecidableEq

/-- Model of `handleVehicleData` on one record string: find the first
grammar match (panicking when there is none), look the vehicle up by its
tracker identifier, parse the timestamp from the labelled time and date
fields, drop the record when the timestamp equals the latest stored
location's, guess the route, parse the numeric fields, and store the new
location.  Returns the store after the call and the outcome. -/
def handleVehicleData (sqrtFn : Q → Q) (order : List ℤ) (ms : MS) (vehicleData : String) :
    MS × Outcome :=
  match findFirst vehicleData.data with
  | none => (ms, .panicked)
  | some r =>
    let itrakID := r.id
    match VehicleWithTrackerID ms itrakID with
    | none => (ms, .unknownVehicle)
    | some vehicle =>
      match itrakTimeDate ("time:".data ++ r.time) ("date:".data ++ r.date) with
      | none => (ms, .badTimeDate)
      | some newTime =>
        if Option.any (fun lu => newTime == lu.time) (LatestLocation ms vehicle) then
          (ms, .duplicate)
        else
          let g := GuessRouteForVehicle sqrtFn ms order vehicle
          if g.2 then (ms, .guessFailed)
          else
            match parseGoFloat r.lat, parseGoFloat r.lng,
                parseGoFloat r.heading, parseGoFloat r.speed with
            | some latitude, some longitude, some heading, some speedKMH =>
              let update : Location :=
                ⟨r.id, latitude, longitude, heading, kphToMPH speedKMH, newTime,
                  g.1.map (fun rt => rt.id)⟩
              (CreateLocation ms update, .created)
            | _, _, _, _ => (ms, .badFloat)

/-- Fuel-driven descending scan computing the integer square root, written
with structural recursion so that the kernel can evaluate it. -/
def fuelSqrtAux : ℕ → ℕ → ℕ
  | 0, _ => 0
  | f + 1, n => if (f + 1) * (f + 1) ≤ n then f + 1 else fuelSqrtAux f n

/-- Integer square root (largest `k` with `k * k ≤ n`). -/
def intSqrt (n : ℕ) : ℕ := fuelSqrtAux n n

/-- Positivity of the fuel-driven scan, needed to build positive
denominators. -/
theorem fuelSqrtAux_pos : ∀ (f n : ℕ), 0 < n → 0 < f → 0 < fuelSqrtAux f n
  | 0, _, _, h0 => absurd h0 (by omega)
  | f + 1, n, hn, _ => by
    unfold fuelSqrtAux
    split
    · omega
    · next h =>
      rcases Nat.eq_zero_or_pos f with hf | hf
      · subst hf; omega
      · exact fuelSqrtAux_pos f n hn hf

/-- Positivity of the integer square root. -/
theorem intSqrt_pos {n : ℕ} (h : 0 < n) : 0 < intSqrt n := fuelSqrtAux_pos n n h h

/-- Concrete stand-in for `math.Sqrt` used by the concrete scenarios: the
integer square roots of numerator and denominator.  It agrees with
`math.Sqrt` exactly on perfect squares (such as `0`, `1` and `169`), the
only arguments at which the concrete scenarios below evaluate it; no
theorem quantified over `sqrtFn` depends on its values. -/
def ratSqrt (x : Q) : Q :=
  if x.num ≤ 0 then Q.zero
  else ⟨intSqrt x.num.natAbs, ⟨intSqrt x.den, intSqrt_pos x.den.pos⟩⟩

/-- A registered vehicle with tracker identifier `12`, shared by the
concrete scenarios. -/
def vehA : Vehicle := ⟨1, "A", "12".data, true⟩

/-- Timestamp 2006-01-02 12:00:00. -/
def tsNoon : Timestamp := ⟨2006, 1, 2, 12, 0, 0⟩

/-- Timestamp 2006-01-02 13:00:00. -/
def tsOne : Timestamp := ⟨2006, 1, 2, 13, 0, 0⟩

/-- Timestamp 2006-01-02 11:00:00. -/
def tsEleven : Timestamp := ⟨2006, 1, 2, 11, 0, 0⟩

/-- A stored location of vehicle `12` at the origin with the given
timestamp. -/
def locAt (t : Timestamp) : Location := ⟨"12".data, Q.zero, Q.zero, Q.zero, Q.zero, t, none⟩

/-- A feed record of vehicle `12` at 12:00:00. -/
def recNoon : String :=
  "Vehicle ID:12 lat:1 lon:1 dir:0 spd:0 lck:0 time:120000 date:01022006 trig:0"

/-- A feed record of vehicle `12` at 11:00:00. -/
def recEleven : String :=
  "Vehicle ID:12 lat:1 lon:1 dir:0 spd:0 lck:0 time:110000 date:01022006 trig:0"

/-- A feed record of vehicle `12` at 11:00:00 whose latitude field `1..2`
matches the field grammar but is not a valid float. -/
def recBadLat : String :=
  "Vehicle ID:12 lat:1..2 lon:1 dir:0 spd:0 lck:0 time:110000 date:01022006 trig:0"

/-- Store with no vehicles, routes or locations. -/
def msEmpty : MS := ⟨[], [], []⟩

/-- Store for the duplicate-check scenarios: vehicle `12` with stored
locations at 13:00:00 (latest) and at 12:00:00 (older). -/
def msC2 : MS := ⟨[vehA], [], [locAt tsOne, locAt tsNoon]⟩

/-- Store whose only stored location for vehicle `12` is at 12:00:00. -/
def msW2 : MS := ⟨[vehA], [], [locAt tsNoon]⟩

/-- Store whose only stored location for vehicle `12` is at 13:00:00. -/
def msC8 : MS := ⟨[vehA], [], [locAt tsOne]⟩

/-- The origin polyline point. -/
def p00 : RPoint := ⟨Q.zero, Q.zero⟩

/-- Enabled, active route `1` through the origin. -/
def rte1 : Route := ⟨1, "R1", true, true, [p00]⟩

/-- Enabled, active route `2` with the same polyline as route `1`. -/
def rte2 : Route := ⟨2, "R2", true, true, [p00]⟩

/-- Enabled, active route with the sentinel identifier `0` through the
origin. -/
def rte0 : Route := ⟨0, "R0", true, true, [p00]⟩

/-- A polyline point at latitude 13 degrees, squared distance 169 from the
origin. -/
def p13 : RPoint := ⟨⟨13, 1⟩, Q.zero⟩

/-- Enabled, active route `1` far from the origin (distance 13, penalized
to 63 per sample). -/
def rteFar : Route := ⟨1, "far", true, true, [p13]⟩

/-- Tie scenario: two identical-polyline routes and five samples at the
origin. -/
def msC3 : MS := ⟨[vehA], [rte1, rte2], List.replicate 5 (locAt tsNoon)⟩

/-- Sentinel-identifier scenario: the best (and only) route has identifier
`0`; five samples at the origin. -/
def msC5 : MS := ⟨[vehA], [rte0], List.replicate 5 (locAt tsNoon)⟩

/-- Far-route scenario: every route's average distance exceeds the
ambiguity threshold. -/
def msFar : MS := ⟨[vehA], [rteFar], List.replicate 5 (locAt tsNoon)⟩

/-- The cross-multiplication order agrees with the rational values. -/
theorem Q.blt_toRat_iff (x y : Q) : x.blt y = true ↔ x.toRat < y.toRat := by
  unfold Q.blt Q.toRat
  rw [decide_eq_true_iff]
  rw [div_lt_div_iff₀ (by exact_mod_cast x.den.pos) (by exact_mod_cast y.den.pos)]
  constructor <;> intro h <;> exact_mod_cast h

/-- The cross-multiplication equality agrees with the rational values. -/
theorem Q.qeqB_toRat_iff (x y : Q) : x.qeqB y = true ↔ x.toRat = y.toRat := by
  unfold Q.qeqB Q.toRat
  rw [decide_eq_true_iff]
  rw [div_eq_div_iff (Nat.cast_ne_zero.mpr x.den.pos.ne') (Nat.cast_ne_zero.mpr y.den.pos.ne')]
  constructor <;> intro h <;> exact_mod_cast h

/-- The float order agrees with the valuation. -/
theorem GoF.blt_val_iff (x y : GoF) : x.blt y = true ↔ x.val < y.val := by
  cases x <;> cases y <;>
    simp [GoF.blt, GoF.val, Q.blt_toRat_iff, WithTop.coe_lt_coe, WithTop.coe_lt_top]

/-- The float equality comparison agrees with the valuation. -/
theorem GoF.qeqB_val_iff (x y : GoF) : x.qeqB y = true ↔ x.val = y.val := by
  cases x <;> cases y <;>
    simp [GoF.qeqB, GoF.val, Q.qeqB_toRat_iff]

/-- Negation of the float order agrees with the valuation. -/
theorem GoF.blt_eq_false_iff (x y : GoF) : x.blt y = false ↔ y.val ≤ x.val := by
  rw [← not_lt, ← GoF.blt_val_iff]
  cases x.blt y <;> simp

/-- Adding infinity on the right absorbs. -/
theorem GoF.add_inf (x : GoF) : x.add .inf = .inf := by cases x <;> rfl

/-- Adding infinity on the left absorbs. -/
theorem GoF.inf_add (x : GoF) : GoF.inf.add x = .inf := by cases x <;> rfl

/-- Division cannot create infinity. -/
theorem GoF.divPos_eq_inf_iff (x : GoF) (n : ℕ+) : x.divPos n = .inf ↔ x = .inf := by
  cases x <;> simp [GoF.divPos]

/-- The running minimum computes the valuation minimum. -/
theorem GoF.val_minB (x y : GoF) : (GoF.minB x y).val = min x.val y.val := by
  unfold GoF.minB
  split
  · next h => rw [min_eq_right (le_of_lt ((GoF.blt_val_iff y x).mp h))]
  · next h =>
    rw [min_eq_left ((GoF.blt_eq_false_iff y x).mp (Bool.not_eq_true _ ▸ h))]

/-- The float five has valuation five. -/
theorem gof5_val : gof5.val = ((5 : ℚ) : WithTop ℚ) := by
  simp [gof5, GoF.val, q5, Q.toRat]

/-- A fold of the running minimum is bounded by its initial value. -/
theorem foldl_minB_le_init (l : List GoF) (i : GoF) :
    (l.foldl GoF.minB i).val ≤ i.val := by
  induction l generalizing i with
  | nil => exact le_rfl
  | cons a t ih =>
    calc (t.foldl GoF.minB (GoF.minB i a)).val ≤ (GoF.minB i a).val := ih _
    _ ≤ i.val := by rw [GoF.val_minB]; exact min_le_left _ _

/-- A fold of the running minimum is bounded by every list element. -/
theorem foldl_minB_le_mem (l : List GoF) :
    ∀ (i x : GoF), x ∈ l → (l.foldl GoF.minB i).val ≤ x.val := by
  induction l with
  | nil => intro _ _ hx; cases hx
  | cons a t ih =>
    intro i x hx
    rcases List.mem_cons.mp hx with rfl | hx'
    · calc (t.foldl GoF.minB (GoF.minB i x)).val ≤ (GoF.minB i x).val :=
        foldl_minB_le_init t _
      _ ≤ x.val := by rw [GoF.val_minB]; exact min_le_right _ _
    · exact ih _ x hx'

/-- A fold of the running minimum returns the initial value or a list
element, structurally. -/
theorem foldl_minB_mem (l : List GoF) (i : GoF) :
    l.foldl GoF.minB i = i ∨ l.foldl GoF.minB i ∈ l := by
  induction l generalizing i with
  | nil => exact Or.inl rfl
  | cons a t ih =>
    rcases ih (GoF.minB i a) with h | h
    · rw [List.foldl_cons, h]
      unfold GoF.minB
      split
      · exact Or.inr (List.mem_cons_self _ _)
      · exact Or.inl rfl
    · exact Or.inr (List.mem_cons_of_mem _ h)

/-- The list minimum is bounded by every element. -/
theorem listMin_le_mem (l : List GoF) (x : GoF) (hx : x ∈ l) :
    (listMin l).val ≤ x.val := foldl_minB_le_mem l _ x hx

/-- The list minimum is infinity or one of the elements, structurally. -/
theorem listMin_cases (l : List GoF) : listMin l = GoF.inf ∨ listMin l ∈ l :=
  foldl_minB_mem l _

/-- Appending one element folds one more running-minimum step. -/
theorem listMin_append (l : List GoF) (x : GoF) :
    listMin (l ++ [x]) = GoF.minB (listMin l) x := by
  unfold listMin
  rw [List.foldl_append, List.foldl_cons, List.foldl_nil]

/-- The average distance consulted by the selection loop for one key. -/
def avgD (dists : ℤ → GoF) (n : ℕ+) (id : ℤ) : GoF := (dists id).divPos n

/-- The first key in the iteration order whose average equals the minimum
average, or the `0` sentinel when no key achieves it. -/
def achieverID (l : List ℤ) (A : ℤ → GoF) : ℤ :=
  (l.find? (fun id => GoF.qeqB (A id) (listMin (l.map A)))).getD 0

/-- One step of the selection loop preserves its invariant: the state holds
the minimum average of the processed keys, and the first key achieving it
unless that minimum exceeds the threshold, in which case the `0`
sentinel. -/
theorem minStep_inv (dists : ℤ → GoF) (n : ℕ+) (l : List ℤ) (s : MinState) (a : ℤ)
    (h1 : s.minDistance = listMin (l.map (avgD dists n)))
    (h2 : s.minRouteID = if GoF.blt gof5 (listMin (l.map (avgD dists n))) then 0
      else achieverID l (avgD dists n)) :
    (minStep dists n s a).minDistance = listMin ((l ++ [a]).map (avgD dists n)) ∧
    (minStep dists n s a).minRouteID =
      if GoF.blt gof5 (listMin ((l ++ [a]).map (avgD dists n))) then 0
      else achieverID (l ++ [a]) (avgD dists n) := by
  have hmap : (l ++ [a]).map (avgD dists n) = l.map (avgD dists n) ++ [avgD dists n a] := by
    rw [List.map_append, List.map_cons, List.map_nil]
  have hdist : (dists a).divPos n = avgD dists n a := rfl
  unfold minStep
  rw [hdist, h1]
  by_cases hlt : GoF.blt (avgD dists n a) (listMin (l.map (avgD dists n))) = true
  · rw [if_pos hlt]
    have hMeq : listMin ((l ++ [a]).map (avgD dists n)) = avgD dists n a := by
      rw [hmap, listMin_append]; unfold GoF.minB; rw [if_pos hlt]
    refine ⟨hMeq.symm, ?_⟩
    rw [hMeq]
    by_cases h5 : GoF.blt gof5 (avgD dists n a) = true
    · rw [if_pos h5, if_pos h5]
    · rw [if_neg h5, if_neg h5]
      unfold achieverID
      rw [hMeq]
      have hnone : (l.find? (fun id => GoF.qeqB (avgD dists n id) (avgD dists n a))) = none := by
        rw [List.find?_eq_none]
        intro x hx hq
        have hvx : (avgD dists n x).val = (avgD dists n a).val := (GoF.qeqB_val_iff _ _).mp hq
        have hge : (listMin (l.map (avgD dists n))).val ≤ (avgD dists n x).val :=
          listMin_le_mem _ _ (List.mem_map_of_mem _ hx)
        have hltv : (avgD dists n a).val < (listMin (l.map (avgD dists n))).val :=
          (GoF.blt_val_iff _ _).mp hlt
        rw [hvx] at hge
        exact absurd (lt_of_lt_of_le hltv hge) (lt_irrefl _)
      have hpa : (GoF.qeqB (avgD dists n a) (avgD dists n a)) = true :=
        (GoF.qeqB_val_iff _ _).mpr rfl
      rw [List.find?_append, hnone, Option.none_or]
      simp only [List.find?, hpa]
      rfl
  · rw [if_neg hlt]
    have hblt : GoF.blt (avgD dists n a) (listMin (l.map (avgD dists n))) = false :=
      eq_false_of_ne_true hlt
    have hMeq : listMin ((l ++ [a]).map (avgD dists n)) = listMin (l.map (avgD dists n)) := by
      rw [hmap, listMin_append]; unfold GoF.minB; rw [if_neg hlt]
    refine ⟨by rw [hMeq]; exact h1, ?_⟩
    rw [hMeq, h2]
    by_cases h5 : GoF.blt gof5 (listMin (l.map (avgD dists n))) = true
    · rw [if_pos h5, if_pos h5]
    · rw [if_neg h5, if_neg h5]
      have hMne : listMin (l.map (avgD dists n)) ≠ GoF.inf := by
        intro htop
        have hle : (listMin (l.map (avgD dists n))).val ≤ gof5.val :=
          (GoF.blt_eq_false_iff _ _).mp (eq_false_of_ne_true h5)
        rw [htop, gof5_val] at hle
        exact WithTop.coe_ne_top (top_le_iff.mp hle)
      have hmem : listMin (l.map (avgD dists n)) ∈ l.map (avgD dists n) :=
        (listMin_cases _).resolve_left hMne
      obtain ⟨x, hxl, hxe⟩ := List.mem_map.mp hmem
      have hsome : (l.find? (fun id => GoF.qeqB (avgD dists n id)
          (listMin (l.map (avgD dists n))))).isSome := by
        rw [List.find?_isSome]
        exact ⟨x, hxl, (GoF.qeqB_val_iff _ _).mpr (by rw [hxe])⟩
      obtain ⟨y, hy⟩ := Option.isSome_iff_exists.mp hsome
      unfold achieverID
      rw [hMeq, List.find?_append, hy]
      rfl

/-- The selection-loop invariant is preserved by folding any remaining
keys. -/
theorem foldl_minStep_inv (dists : ℤ → GoF) (n : ℕ+) :
    ∀ (rest l : List ℤ) (s : MinState),
    (s.minDistance = listMin (l.map (avgD dists n)) ∧
      s.minRouteID = if GoF.blt gof5 (listMin (l.map (avgD dists n))) then 0
        else achieverID l (avgD dists n)) →
    ((rest.foldl (minStep dists n) s).minDistance =
        listMin ((l ++ rest).map (avgD dists n)) ∧
      (rest.foldl (minStep dists n) s).minRouteID =
        if GoF.blt gof5 (listMin ((l ++ rest).map (avgD dists n))) then 0
        else achieverID (l ++ rest) (avgD dists n)) := by
  intro rest
  induction rest with
  | nil =>
    intro l s h
    rw [List.foldl_nil, List.append_nil]
    exact h
  | cons a t ih =>
    intro l s h
    rw [List.foldl_cons]
    have hstep := minStep_inv dists n l s a h.1 h.2
    have := ih (l ++ [a]) (minStep dists n s a) hstep
    rwa [List.append_assoc, List.singleton_append] at this

/-- Characterization of the selection loop of `GuessRouteForVehicle`: over
any iteration order it returns the `0` sentinel when the minimum average
exceeds the threshold `5`, and otherwise the first key in the order whose
average equals the minimum average.  In particular ties resolve to the
first tied key encountered, because the loop's comparison is strict. -/
theorem selectMin_spec (order : List ℤ) (dists : ℤ → GoF) (n : ℕ+) :
    selectMinRouteID order dists n =
      if GoF.blt gof5 (listMin (order.map (avgD dists n))) then 0
      else achieverID order (avgD dists n) := by
  have hbase : (⟨GoF.inf, 0⟩ : MinState).minDistance = listMin (([] : List ℤ).map (avgD dists n)) ∧
      (⟨GoF.inf, 0⟩ : MinState).minRouteID =
        if GoF.blt gof5 (listMin (([] : List ℤ).map (avgD dists n))) then 0
        else achieverID [] (avgD dists n) := by
    constructor
    · rfl
    · rfl
  have := foldl_minStep_inv dists n order [] ⟨GoF.inf, 0⟩ hbase
  rw [List.nil_append] at this
  exact this.2

/-- Reading the updated map at the updated key. -/
theorem updAt_same (f : ℤ → GoF) (k : ℤ) (v : GoF) : updAt f k v k = v := by
  simp [updAt]

/-- Reading the updated map at another key. -/
theorem updAt_ne (f : ℤ → GoF) (k : ℤ) (v : GoF) (x : ℤ) (h : x ≠ k) :
    updAt f k v x = f x := by
  simp [updAt, h]

/-- The disabled-or-inactive check does not touch other keys. -/
theorem disabledStep_ne (dists : ℤ → GoF) (route : Route) (x : ℤ) (h : x ≠ route.id) :
    disabledStep dists route x = dists x := by
  unfold disabledStep
  split_ifs
  · exact updAt_ne _ _ _ _ h
  · rfl

/-- The disabled-or-inactive check preserves an infinite entry. -/
theorem disabledStep_inf (dists : ℤ → GoF) (route : Route) (h : dists route.id = .inf) :
    disabledStep dists route route.id = .inf := by
  unfold disabledStep
  split_ifs
  · rw [updAt_same, h, GoF.inf_add]
  · exact h

/-- A disabled or inactive route's own entry becomes infinite. -/
theorem disabledStep_bad (dists : ℤ → GoF) (route : Route)
    (h : (!route.enabled || !route.active) = true) :
    disabledStep dists route route.id = .inf := by
  unfold disabledStep
  rw [if_pos h, updAt_same, GoF.add_inf]

/-- An empty polyline has infinite penalized distance. -/
theorem penalizedDistance_nil (sqrtFn : Q → Q) (u : Location) :
    penalizedDistance sqrtFn u [] = .inf := rfl

/-- One route's contribution step preserves an infinite entry at any key. -/
theorem routeStep_preserve (sqrtFn : Q → Q) (u : Location) (r : Route) (dists : ℤ → GoF)
    (k : ℤ) (h : dists k = .inf) : (routeStep sqrtFn u dists r) k = .inf := by
  unfold routeStep
  by_cases hk : k = r.id
  · subst hk
    rw [updAt_same, disabledStep_inf dists r h, GoF.inf_add]
  · rw [updAt_ne _ _ _ _ hk, disabledStep_ne _ _ _ hk]
    exact h

/-- A disabled, inactive or empty-polyline route's contribution step makes
its own entry infinite. -/
theorem routeStep_poison (sqrtFn : Q → Q) (u : Location) (r : Route) (dists : ℤ → GoF)
    (hbad : (!r.enabled || !r.active) = true ∨ r.points = []) :
    (routeStep sqrtFn u dists r) r.id = .inf := by
  unfold routeStep
  rw [updAt_same]
  rcases hbad with hd | hp
  · rw [disabledStep_bad dists r hd, GoF.inf_add]
  · rw [hp, penalizedDistance_nil, GoF.add_inf]

/-- Folding contribution steps over any route list preserves an infinite
entry. -/
theorem foldl_routeStep_preserve (sqrtFn : Q → Q) (u : Location) (routes : List Route) :
    ∀ (dists : ℤ → GoF) (k : ℤ), dists k = .inf →
    (routes.foldl (routeStep sqrtFn u) dists) k = .inf := by
  induction routes with
  | nil => intro dists k h; exact h
  | cons r rs ih =>
    intro dists k h
    rw [List.foldl_cons]
    exact ih _ k (routeStep_preserve sqrtFn u r dists k h)

/-- Folding contribution steps over a route list containing a disabled,
inactive or empty-polyline route makes that route's entry infinite. -/
theorem foldl_routeStep_poison (sqrtFn : Q → Q) (u : Location) (routes : List Route)
    (r : Route) (hmem : r ∈ routes)
    (hbad : (!r.enabled || !r.active) = true ∨ r.points = []) :
    ∀ (dists : ℤ → GoF), (routes.foldl (routeStep sqrtFn u) dists) r.id = .inf := by
  induction routes with
  | nil => cases hmem
  | cons a rs ih =>
    intro dists
    rw [List.foldl_cons]
    rcases List.mem_cons.mp hmem with rfl | hmem'
    · exact foldl_routeStep_preserve sqrtFn u rs _ _ (routeStep_poison sqrtFn u r dists hbad)
    · exact ih hmem' _

/-- Folding whole updates preserves an infinite entry. -/
theorem foldl_updates_preserve (sqrtFn : Q → Q) (routes : List Route) :
    ∀ (us : List Location) (dists : ℤ → GoF) (k : ℤ), dists k = .inf →
    (us.foldl (fun d u => routes.foldl (routeStep sqrtFn u) d) dists) k = .inf := by
  intro us
  induction us with
  | nil => intro dists k h; exact h
  | cons u2 us2 ih =>
    intro dists k h
    rw [List.foldl_cons]
    exact ih _ k (foldl_routeStep_preserve sqrtFn u2 routes dists k h)

/-- The accumulated distance of a disabled, inactive or empty-polyline
route is infinite whenever there is at least one update. -/
theorem routeDistances_poison (sqrtFn : Q → Q) (routes : List Route)
    (updates : List Location) (r : Route) (hmem : r ∈ routes)
    (hbad : (!r.enabled || !r.active) = true ∨ r.points = [])
    (hup : updates ≠ []) :
    routeDistances sqrtFn routes updates r.id = .inf := by
  unfold routeDistances
  cases updates with
  | nil => exact absurd rfl hup
  | cons u us =>
    rw [List.foldl_cons]
    exact foldl_updates_preserve sqrtFn routes us _ _
      (foldl_routeStep_poison sqrtFn u routes r hmem hbad _)

/-- The average-distance map consulted by the selection phase of
`GuessRouteForVehicle`. -/
def guessAvg (sqrtFn : Q → Q) (ms : MS) (v : Vehicle) : ℤ → GoF :=
  avgD (routeDistances sqrtFn ms.routes (LocationsSince ms v))
    (LocationsSince ms v).length.toPNat'

/-- Elimination for a successful route guess: the history guard passed, the
returned route was looked up from the store by the selected nonzero key. -/
theorem guess_some_facts (sqrtFn : Q → Q) (ms : MS) (order : List ℤ) (v : Vehicle)
    (r : Route) (e : Bool)
    (h : GuessRouteForVehicle sqrtFn ms order v = (some r, e)) :
    ¬ (LocationsSince ms v).length < 5 ∧
    r ∈ ms.routes ∧
    r.id = selectMinRouteID order
      (routeDistances sqrtFn ms.routes (LocationsSince ms v))
      (LocationsSince ms v).length.toPNat' ∧
    selectMinRouteID order (routeDistances sqrtFn ms.routes (LocationsSince ms v))
      (LocationsSince ms v).length.toPNat' ≠ 0 := by
  by_cases h5 : (LocationsSince ms v).length < 5
  · exfalso
    unfold GuessRouteForVehicle at h
    rw [if_pos h5] at h
    cases h
  · refine ⟨h5, ?_⟩
    unfold GuessRouteForVehicle at h
    rw [if_neg h5] at h
    by_cases h0 : selectMinRouteID order
        (routeDistances sqrtFn ms.routes (LocationsSince ms v))
        (LocationsSince ms v).length.toPNat' = 0
    · exfalso
      rw [if_pos h0] at h
      cases h
    · rw [if_neg h0] at h
      cases hr : RouteByID ms (selectMinRouteID order
          (routeDistances sqrtFn ms.routes (LocationsSince ms v))
          (LocationsSince ms v).length.toPNat') with
      | none =>
        exfalso
        rw [hr] at h
        cases h
      | some rt =>
        rw [hr] at h
        have hrt : rt = r := by
          have := congrArg Prod.fst h
          simpa using this
        subst hrt
        refine ⟨List.mem_of_find?_eq_some hr, ?_, h0⟩
        have := List.find?_some hr
        exact eq_of_beq this

/-- A selected nonzero key has a finite average: it is the first key whose
average equals the minimum average, which lies below the threshold. -/
theorem selectMin_ne_zero_finite (order : List ℤ) (dists : ℤ → GoF) (n : ℕ+)
    (h : selectMinRouteID order dists n ≠ 0) :
    avgD dists n (selectMinRouteID order dists n) ≠ GoF.inf := by
  rw [selectMin_spec] at h ⊢
  by_cases h5 : GoF.blt gof5 (listMin (order.map (avgD dists n))) = true
  · rw [if_pos h5] at h
    exact absurd rfl h
  · rw [if_neg h5] at h ⊢
    unfold achieverID at h ⊢
    cases hf : order.find? (fun id => GoF.qeqB (avgD dists n id)
        (listMin (order.map (avgD dists n)))) with
    | none =>
      rw [hf] at h
      exact absurd rfl h
    | some x =>
      rw [Option.getD_some]
      intro htop
      have hpx := List.find?_some hf
      have hv : (avgD dists n x).val = (listMin (order.map (avgD dists n))).val :=
        (GoF.qeqB_val_iff _ _).mp hpx
      have hle : (listMin (order.map (avgD dists n))).val ≤ gof5.val :=
        (GoF.blt_eq_false_iff _ _).mp (eq_false_of_ne_true h5)
      rw [← hv, htop, gof5_val] at hle
      exact WithTop.coe_ne_top (top_le_iff.mp hle)

/-- A nonempty recent history, as implied by the passed history guard. -/
theorem updates_ne_nil (ms : MS) (v : Vehicle) (h5 : ¬ (LocationsSince ms v).length < 5) :
    LocationsSince ms v ≠ [] := by
  intro hnil
  rw [hnil] at h5
  exact h5 (by decide)

/-- Claim C1: the claim states that `handleVehicleData` completes normally
(skipping the record) on any input string, including one with no grammar
match.  The code instead indexes `[0]` into the empty match list that
`FindAllStringSubmatch` returns for a non-matching record, raising a
runtime panic (inside a goroutine, so it kills the process): on the
concrete non-matching record below, the embedded handler reaches the
panic outcome rather than any skipping outcome. -/
theorem c1_nonmatching_record_panics :
    findFirst "this does not match the grammar".data = none ∧
    handleVehicleData ratSqrt [] msEmpty "this does not match the grammar" =
      (msEmpty, .panicked) := by
  constructor
  · decide
  · decide

/-- Claim C4: padding `time:0` inserts five zeros between the 5-character
label and the remaining digit, reaching width 11, and parsing it together
with `date:01022006` under the layout `date:01022006 time:150405` yields
exactly January 2, 2006, 00:00:00. -/
theorem c4_time_padding_and_parse :
    padItrakTime "time:0".data =
      "time:".data ++ List.replicate 5 '0' ++ "0".data ∧
    (padItrakTime "time:0".data).length = 11 ∧
    itrakTimeDate "time:0".data "date:01022006".data =
      some ⟨2006, 1, 2, 0, 0, 0⟩ := by
  refine ⟨by decide, by decide, by decide⟩

/-- Claim C7: whenever the history lookup returns fewer than 5 recent
samples, the route guesser returns no route and no error, before any
route geometry is consulted (the guard precedes the accumulation loop). -/
theorem c7_few_samples_abstains (sqrtFn : Q → Q) (ms : MS) (order : List ℤ)
    (v : Vehicle) (h : (LocationsSince ms v).length < 5) :
    GuessRouteForVehicle sqrtFn ms order v = (none, false) := by
  unfold GuessRouteForVehicle
  rw [if_pos h]

/-- Witness for C7 at a concrete store with two stored samples. -/
theorem c7_witness :
    (LocationsSince msC2 vehA).length < 5 ∧
    GuessRouteForVehicle ratSqrt msC2 [] vehA = (none, false) :=
  ⟨by decide, c7_few_samples_abstains ratSqrt msC2 [] vehA (by decide)⟩

/-- Claim C2 counterexample: the duplicate check only consults the most
recently stored location, so a record whose parsed timestamp equals an
older (non-latest) stored location's timestamp is stored again: with
locations at 13:00 (latest) and 12:00 stored, the 12:00 record below is
accepted and the store ends with two locations timestamped 12:00. -/
theorem c2_counterexample_equal_nonlatest_timestamp_stored :
    (msC2.locations.filter (fun l => l.time == tsNoon)).length = 1 ∧
    findFirst recNoon.data = some ⟨"12".data, "1".data, "1".data, "0".data,
      "0".data, "0".data, "120000".data, "01022006".data, "0".data⟩ ∧
    itrakTimeDate ("time:".data ++ "120000".data) ("date:".data ++ "01022006".data) =
      some tsNoon ∧
    (handleVehicleData ratSqrt [] msC2 recNoon).2 = .created ∧
    ((handleVehicleData ratSqrt [] msC2 recNoon).1.locations.filter
      (fun l => l.time == tsNoon)).length = 2 := by
  refine ⟨by decide, by decide, by decide, by decide, by decide⟩

/-- Claim C2 (amended): whenever the parsed timestamp of an incoming
record equals the timestamp of the vehicle's most recently stored
location, the record is discarded and `CreateLocation` is not called (the
store is unchanged); equality against older stored locations is not
checked, so the global no-duplicate-timestamp set invariant does not
hold. -/
theorem c2_equal_latest_timestamp_discarded (sqrtFn : Q → Q) (order : List ℤ)
    (ms : MS) (s : String) (rec : ParsedRecord) (v : Vehicle) (t : Timestamp)
    (lu : Location)
    (hrec : findFirst s.data = some rec)
    (hveh : VehicleWithTrackerID ms rec.id = some v)
    (ht : itrakTimeDate ("time:".data ++ rec.time) ("date:".data ++ rec.date) = some t)
    (hlu : LatestLocation ms v = some lu)
    (heq : t = lu.time) :
    handleVehicleData sqrtFn order ms s = (ms, .duplicate) := by
  have ht' : itrakTimeDate ('t' :: 'i' :: 'm' :: 'e' :: ':' :: rec.time)
      ('d' :: 'a' :: 't' :: 'e' :: ':' :: rec.date) = some t := ht
  simp [handleVehicleData, hrec, hveh, ht', hlu, heq, Option.any]

/-- Witness for the amended C2: a record timestamped like the latest
stored location is discarded with the store unchanged. -/
theorem c2_witness_duplicate_discarded :
    handleVehicleData ratSqrt [] msW2 recNoon = (msW2, .duplicate) :=
  c2_equal_latest_timestamp_discarded ratSqrt [] msW2 recNoon
    ⟨"12".data, "1".data, "1".data, "0".data, "0".data, "0".data,
      "120000".data, "01022006".data, "0".data⟩
    vehA tsNoon (locAt tsNoon)
    (by decide) (by decide) (by decide) (by decide) rfl

/-- Claim C8 counterexample: a record whose parsed timestamp differs from
the latest stored location's is not necessarily accepted and stored: this
grammar-matching record for a known vehicle carries the earlier timestamp
11:00 against a latest of 13:00, yet its latitude field `1..2` fails float
parsing, so no location is created and the store is unchanged. -/
theorem c8_counterexample_bad_float_not_stored :
    findFirst recBadLat.data = some ⟨"12".data, "1..2".data, "1".data, "0".data,
      "0".data, "0".data, "110000".data, "01022006".data, "0".data⟩ ∧
    itrakTimeDate ("time:".data ++ "110000".data) ("date:".data ++ "01022006".data) =
      some tsEleven ∧
    LatestLocation msC8 vehA = some (locAt tsOne) ∧
    tsEleven ≠ tsOne ∧
    handleVehicleData ratSqrt [] msC8 recBadLat = (msC8, .badFloat) := by
  refine ⟨by decide, by decide, by decide, by decide, by decide⟩

/-- Claim C8 (amended): the duplicate check is strictly an equality check
against the most recently stored location: a record whose parsed timestamp
differs from it — including one strictly earlier — passes the check, and
provided its numeric fields parse and the route guess does not fail, a
location carrying that timestamp is created and persisted. -/
theorem c8_differing_timestamp_stored (sqrtFn : Q → Q) (order : List ℤ)
    (ms : MS) (s : String) (rec : ParsedRecord) (v : Vehicle) (t : Timestamp)
    (la lo hd sp : Q)
    (hrec : findFirst s.data = some rec)
    (hveh : VehicleWithTrackerID ms rec.id = some v)
    (ht : itrakTimeDate ("time:".data ++ rec.time) ("date:".data ++ rec.date) = some t)
    (hne : ∀ lu, LatestLocation ms v = some lu → ¬ t = lu.time)
    (hg : (GuessRouteForVehicle sqrtFn ms order v).2 = false)
    (hla : parseGoFloat rec.lat = some la)
    (hlo : parseGoFloat rec.lng = some lo)
    (hhd : parseGoFloat rec.heading = some hd)
    (hsp : parseGoFloat rec.speed = some sp) :
    handleVehicleData sqrtFn order ms s =
      (CreateLocation ms ⟨rec.id, la, lo, hd, kphToMPH sp, t,
        (GuessRouteForVehicle sqrtFn ms order v).1.map (fun rt => rt.id)⟩, .created) := by
  have hany : Option.any (fun lu => t == lu.time) (LatestLocation ms v) = false := by
    cases hl : LatestLocation ms v with
    | none => rfl
    | some lu =>
      simp only [Option.any]
      exact beq_eq_false_iff_ne.mpr (hne lu hl)
  have ht' : itrakTimeDate ('t' :: 'i' :: 'm' :: 'e' :: ':' :: rec.time)
      ('d' :: 'a' :: 't' :: 'e' :: ':' :: rec.date) = some t := ht
  simp [handleVehicleData, hrec, hveh, ht', hany, hg, hla, hlo, hhd, hsp]

/-- Witness for the amended C8: a record strictly earlier (11:00) than the
latest stored location (13:00) is accepted and persisted with its own
timestamp. -/
theorem c8_witness_earlier_timestamp_stored :
    tsEleven.hour < tsOne.hour ∧
    handleVehicleData ratSqrt [] msC8 recEleven =
      (CreateLocation msC8 ⟨"12".data, ⟨1, 1⟩, ⟨1, 1⟩, ⟨0, 1⟩,
        kphToMPH ⟨0, 1⟩, tsEleven,
        (GuessRouteForVehicle ratSqrt msC8 [] vehA).1.map (fun rt => rt.id)⟩,
        .created) :=
  ⟨by decide,
    c8_differing_timestamp_stored ratSqrt [] msC8 recEleven
      ⟨"12".data, "1".data, "1".data, "0".data, "0".data, "0".data,
        "110000".data, "01022006".data, "0".data⟩
      vehA tsEleven ⟨1, 1⟩ ⟨1, 1⟩ ⟨0, 1⟩ ⟨0, 1⟩
      (by decide) (by decide) (by decide)
      (by intro lu hl heq
          have : lu = locAt tsOne := by
            have : some lu = some (locAt tsOne) := by rw [← hl]; decide
            exact Option.some.inj this
          rw [this] at heq
          exact absurd heq (by decide))
      (by decide) (by decide) (by decide) (by decide) (by decide)⟩

/-- Claim C3 counterexample: the claim states that ties resolve to the
tied route encountered last in the iteration order.  With two routes of
identical polylines (so exactly equal average distances) and the iteration
order `[1, 2]`, the guesser returns route `1` — the first tied route
encountered, not the last. -/
theorem c3_counterexample_tie_selects_first :
    GoF.qeqB (guessAvg ratSqrt msC3 vehA 1) (guessAvg ratSqrt msC3 vehA 2) = true ∧
    GuessRouteForVehicle ratSqrt msC3 [1, 2] vehA = (some rte1, false) ∧
    rte1.id = 1 := by
  refine ⟨by decide, by decide, by decide⟩

/-- Claim C3 (amended): when candidate routes tie at the minimal average
accumulated distance, the selection loop of the route guesser keeps
whichever tied key is encountered first in the iteration order, because
its comparison is strict: over any order it returns the `0` sentinel when
the minimum average exceeds the threshold `5`, and otherwise the first key
in the order whose average equals the minimum average. -/
theorem c3_tie_selects_first_encountered (order : List ℤ) (dists : ℤ → GoF) (n : ℕ+) :
    selectMinRouteID order dists n =
      if GoF.blt gof5 (listMin (order.map (avgD dists n))) then 0
      else achieverID order (avgD dists n) :=
  selectMin_spec order dists n

/-- Claim C5 counterexample: the claim states that whenever the minimum
average distance is at most `5.0` the guesser selects the minimizing
route.  With a single enabled, active route whose identifier is `0` (the
internal no-route sentinel) achieving average distance `0`, the guesser
returns no route instead of that route. -/
theorem c5_counterexample_sentinel_id_route :
    GoF.blt gof5 (listMin ([(0 : ℤ)].map (guessAvg ratSqrt msC5 vehA))) = false ∧
    rte0 ∈ msC5.routes ∧ rte0.id = 0 ∧
    GuessRouteForVehicle ratSqrt msC5 [0] vehA = (none, false) := by
  refine ⟨by decide, by decide, by decide, by decide⟩

/-- Claim C5 (amended): with at least 5 recent samples, if the minimum
over the iteration order of the average penalty-adjusted accumulated
distances exceeds `5.0` the route guesser returns no route and no error —
even though the threshold test sits inside the minimum-selection loop —
and conversely, if that minimum is at most `5.0` and no candidate key is
the `0` sentinel, it returns a stored route achieving the minimum. -/
theorem c5_threshold_behavior (sqrtFn : Q → Q) (ms : MS) (order : List ℤ)
    (v : Vehicle) (h5 : ¬ (LocationsSince ms v).length < 5) :
    (GoF.blt gof5 (listMin (order.map (guessAvg sqrtFn ms v))) = true →
      GuessRouteForVehicle sqrtFn ms order v = (none, false)) ∧
    (GoF.blt gof5 (listMin (order.map (guessAvg sqrtFn ms v))) = false →
      (∀ id ∈ order, id ≠ 0) →
      (∀ id ∈ order, ∃ rt ∈ ms.routes, rt.id = id) →
      ∃ r, GuessRouteForVehicle sqrtFn ms order v = (some r, false) ∧ r ∈ ms.routes ∧
        GoF.qeqB (guessAvg sqrtFn ms v r.id)
          (listMin (order.map (guessAvg sqrtFn ms v))) = true) := by
  constructor
  · intro hgt
    unfold GuessRouteForVehicle
    rw [if_neg h5]
    have hsel : selectMinRouteID order
        (routeDistances sqrtFn ms.routes (LocationsSince ms v))
        (LocationsSince ms v).length.toPNat' = 0 := by
      have hgt' : GoF.blt gof5 (listMin (order.map (avgD
          (routeDistances sqrtFn ms.routes (LocationsSince ms v))
          (LocationsSince ms v).length.toPNat'))) = true := hgt
      rw [selectMin_spec, if_pos hgt']
    rw [if_pos hsel]
  · intro hle h0 hsub
    have hMne : listMin (order.map (guessAvg sqrtFn ms v)) ≠ GoF.inf := by
      intro htop
      have hv := (GoF.blt_eq_false_iff _ _).mp hle
      rw [htop, gof5_val] at hv
      exact WithTop.coe_ne_top (top_le_iff.mp hv)
    have hmem : listMin (order.map (guessAvg sqrtFn ms v)) ∈
        order.map (guessAvg sqrtFn ms v) := (listMin_cases _).resolve_left hMne
    obtain ⟨x, hxl, hxe⟩ := List.mem_map.mp hmem
    have hsome : (order.find? (fun id => GoF.qeqB (guessAvg sqrtFn ms v id)
        (listMin (order.map (guessAvg sqrtFn ms v))))).isSome := by
      rw [List.find?_isSome]
      exact ⟨x, hxl, (GoF.qeqB_val_iff _ _).mpr (by rw [hxe])⟩
    obtain ⟨y, hy⟩ := Option.isSome_iff_exists.mp hsome
    have hymem : y ∈ order := List.mem_of_find?_eq_some hy
    have hyp := List.find?_some hy
    have hyne : y ≠ 0 := h0 y hymem
    have hle' : GoF.blt gof5 (listMin (order.map (avgD
        (routeDistances sqrtFn ms.routes (LocationsSince ms v))
        (LocationsSince ms v).length.toPNat'))) = false := hle
    have hy' : order.find? (fun id => GoF.qeqB (avgD
        (routeDistances sqrtFn ms.routes (LocationsSince ms v))
        (LocationsSince ms v).length.toPNat' id)
        (listMin (order.map (avgD
          (routeDistances sqrtFn ms.routes (LocationsSince ms v))
          (LocationsSince ms v).length.toPNat')))) = some y := hy
    have hsel : selectMinRouteID order
        (routeDistances sqrtFn ms.routes (LocationsSince ms v))
        (LocationsSince ms v).length.toPNat' = y := by
      rw [selectMin_spec, if_neg (by intro hc; rw [hc] at hle'; cases hle')]
      unfold achieverID
      rw [hy', Option.getD_some]
    obtain ⟨rt, hrtmem, hrtid⟩ := hsub y hymem
    have hfind : (ms.routes.find? (fun r => r.id == y)).isSome := by
      rw [List.find?_isSome]
      exact ⟨rt, hrtmem, beq_iff_eq.mpr hrtid⟩
    obtain ⟨r, hr⟩ := Option.isSome_iff_exists.mp hfind
    have hrmem : r ∈ ms.routes := List.mem_of_find?_eq_some hr
    have hb := List.find?_some hr
    have hrid : r.id = y := eq_of_beq hb
    refine ⟨r, ?_, hrmem, ?_⟩
    · unfold GuessRouteForVehicle
      rw [if_neg h5, hsel, if_neg hyne]
      have hr2 : RouteByID ms y = some r := hr
      rw [hr2]
    · rw [hrid]
      exact hyp

/-- Witness for the amended C5: the far route (average distance 63) yields
no route; in the tie scenario (average distance 0, all keys nonzero) a
minimizing stored route is returned. -/
theorem c5_witness_threshold :
    GuessRouteForVehicle ratSqrt msFar [1] vehA = (none, false) ∧
    ∃ r, GuessRouteForVehicle ratSqrt msC3 [1, 2] vehA = (some r, false) ∧
      r ∈ msC3.routes ∧
      GoF.qeqB (guessAvg ratSqrt msC3 vehA r.id)
        (listMin ([(1 : ℤ), 2].map (guessAvg ratSqrt msC3 vehA))) = true :=
  ⟨(c5_threshold_behavior ratSqrt msFar [1] vehA (by decide)).1 (by decide),
    (c5_threshold_behavior ratSqrt msC3 [1, 2] vehA (by decide)).2
      (by decide) (by decide) (by decide)⟩

/-- Claim C6: the route guesser never returns a route whose enabled flag
or active flag is false: every sample adds infinity to such a route's
accumulated distance, so its average is infinite and it can never be the
selected minimum. -/
theorem c6_returned_route_enabled_active (sqrtFn : Q → Q) (ms : MS) (order : List ℤ)
    (v : Vehicle) (r : Route) (e : Bool)
    (h : GuessRouteForVehicle sqrtFn ms order v = (some r, e)) :
    r.enabled = true ∧ r.active = true := by
  obtain ⟨h5, hmem, hid, hne⟩ := guess_some_facts sqrtFn ms order v r e h
  by_contra hcon
  have hbad : (!r.enabled || !r.active) = true := by
    cases hre : r.enabled <;> cases hra : r.active <;> simp_all
  have hpoison := routeDistances_poison sqrtFn ms.routes (LocationsSince ms v) r hmem
    (Or.inl hbad) (updates_ne_nil ms v h5)
  have hfin := selectMin_ne_zero_finite order
    (routeDistances sqrtFn ms.routes (LocationsSince ms v))
    (LocationsSince ms v).length.toPNat' hne
  rw [← hid] at hfin
  apply hfin
  unfold avgD
  rw [hpoison]
  rfl

/-- Witness for C6: a concrete successful guess, whose returned route must
therefore be enabled and active. -/
theorem c6_witness :
    GuessRouteForVehicle ratSqrt msC3 [1, 2] vehA = (some rte1, false) ∧
    (rte1.enabled = true ∧ rte1.active = true) :=
  ⟨by decide, c6_returned_route_enabled_active ratSqrt msC3 [1, 2] vehA rte1 false (by decide)⟩

/-- Claim C9: the value `0` is the internal no-route sentinel: a returned
route never has identifier `0`, and whenever the first key achieving the
minimum average (the best-matching candidate) is `0`, the guesser reports
no route and no error, even if that route is enabled, active and within
the threshold. -/
theorem c9_zero_id_never_returned (sqrtFn : Q → Q) (ms : MS) (order : List ℤ)
    (v : Vehicle) :
    (∀ (r : Route) (e : Bool),
      GuessRouteForVehicle sqrtFn ms order v = (some r, e) → r.id ≠ 0) ∧
    (achieverID order (guessAvg sqrtFn ms v) = 0 →
      GuessRouteForVehicle sqrtFn ms order v = (none, false)) := by
  constructor
  · intro r e h
    obtain ⟨_, _, hid, hne⟩ := guess_some_facts sqrtFn ms order v r e h
    rw [hid]
    exact hne
  · intro hach
    unfold GuessRouteForVehicle
    by_cases h5 : (LocationsSince ms v).length < 5
    · rw [if_pos h5]
    · rw [if_neg h5]
      have hsel : selectMinRouteID order
          (routeDistances sqrtFn ms.routes (LocationsSince ms v))
          (LocationsSince ms v).length.toPNat' = 0 := by
        rw [selectMin_spec]
        split_ifs
        · rfl
        · exact hach
      rw [if_pos hsel]

/-- Witness for C9: a successful guess returns a nonzero identifier, and
the scenario whose best (and only) candidate has identifier `0` returns no
route. -/
theorem c9_witness :
    rte1.id ≠ 0 ∧
    achieverID [0] (guessAvg ratSqrt msC5 vehA) = 0 ∧
    GuessRouteForVehicle ratSqrt msC5 [0] vehA = (none, false) :=
  ⟨(c9_zero_id_never_returned ratSqrt msC3 [1, 2] vehA).1 rte1 false (by decide),
    by decide,
    (c9_zero_id_never_returned ratSqrt msC5 [0] vehA).2 (by decide)⟩

/-- Claim C10: the route guesser never returns a route whose polyline is
empty, whatever its flags: with no points the nearest-point distance of
every sample stays infinite, so the route's average is infinite and it can
never be the selected minimum. -/
theorem c10_empty_polyline_never_returned (sqrtFn : Q → Q) (ms : MS) (order : List ℤ)
    (v : Vehicle) (r : Route) (e : Bool)
    (h : GuessRouteForVehicle sqrtFn ms order v = (some r, e)) :
    r.points ≠ [] := by
  obtain ⟨h5, hmem, hid, hne⟩ := guess_some_facts sqrtFn ms order v r e h
  intro hnil
  have hpoison := routeDistances_poison sqrtFn ms.routes (LocationsSince ms v) r hmem
    (Or.inr hnil) (updates_ne_nil ms v h5)
  have hfin := selectMin_ne_zero_finite order
    (routeDistances sqrtFn ms.routes (LocationsSince ms v))
    (LocationsSince ms v).length.toPNat' hne
  rw [← hid] at hfin
  apply hfin
  unfold avgD
  rw [hpoison]
  rfl

/-- Witness for C10: a concrete successful guess, whose returned route
must therefore have a nonempty polyline. -/
theorem c10_witness :
    GuessRouteForVehicle ratSqrt msC3 [1, 2] vehA = (some rte1, false) ∧
    rte1.points ≠ [] :=
  ⟨by decide,
    c10_empty_polyline_never_returned ratSqrt msC3 [1, 2] vehA rte1 false (by decide)⟩
